import Mathlib

/-!
Verification development for the swarmkit certificate-authority control plane
and the manager store tables.

The store tables for networks (manager/state/store/networks.go) and nodes are
translated directly from the Go source.  The CA server, signing worker pool and
root-rotation reconciler are not part of the provided source tree (only their
test file is), so those operations are modelled from the specification of the
CA control plane; each such definition carries a doc comment saying so.

Cryptographic collaborators (digest computation, issuer extraction from a CA
certificate, join-token generation, CSR decoding, signing) are treated as pure
library functions, exactly as the specification scopes them out; they appear
here as explicit function parameters so that every definition stays executable.
-/

namespace Swarmkit

/-! ### Data model (spec section 3) -/

/-- Membership of a node in the cluster, from the spec data model
(spec.membership is one of Pending, Accepted, Rejected). -/
inductive NodeMembership where
  | pending
  | accepted
  | rejected
deriving DecidableEq

/-- Issuance state of a node certificate
(status.state is one of Pending, Renew, Rotate, Issued, Failed). -/
inductive IssuanceState where
  | pending
  | renew
  | rotate
  | issued
  | failed
deriving DecidableEq

/-- Desired or issued role of a node. -/
inductive NodeRole where
  | worker
  | manager
deriving DecidableEq

/-- TLS issuer information reported by the agent:
description.tlsInfo = (trustRoot, issuerPublicKey, issuerSubject). -/
structure NodeTLSInfo where
  trustRoot : String
  certIssuerPublicKey : String
  certIssuerSubject : String
deriving DecidableEq

/-- status = (state, err) on a node certificate. -/
structure IssuanceStatus where
  state : IssuanceState
  err : String
deriving DecidableEq

/-- certificate = (csr, certificate, role, status); csr and certificate are
absent until submitted / issued. -/
structure Certificate where
  csr : Option String
  certificate : Option String
  role : NodeRole
  status : IssuanceStatus
deriving DecidableEq

/-- A node record as stored in the replicated store. -/
structure Node where
  id : String
  membership : NodeMembership
  desiredRole : NodeRole
  tlsInfo : Option NodeTLSInfo
  certificate : Certificate
deriving DecidableEq

/-- joinTokens = (worker, manager). -/
structure JoinTokens where
  worker : String
  manager : String
deriving DecidableEq

/-- rootRotation = (caCert, caKey, crossSignedCACert); present iff a root
rotation is in progress.  An empty caKey stands for an absent key (external
signer only). -/
structure RootRotation where
  caCert : String
  caKey : String
  crossSignedCACert : String
deriving DecidableEq

/-- rootCA = (caCert, caKey, caCertHash, joinTokens, rootRotation). -/
structure RootCA where
  caCert : String
  caKey : String
  caCertHash : String
  joinTokens : JoinTokens
  rootRotation : Option RootRotation
deriving DecidableEq

/-- An external CA entry from spec.caConfig.externalCAs: a signer URL plus the
CA cert it signs under (empty means: matches the non-rotation root). -/
structure ExternalCAConf where
  url : String
  caCert : String
deriving DecidableEq

/-- The cluster object; its id doubles as the cluster organization. -/
structure Cluster where
  id : String
  rootCA : RootCA
  externalCAs : List ExternalCAConf
deriving DecidableEq

/-- The store state the CA control plane operates on: the single cluster
object plus the node table. -/
structure CAState where
  cluster : Cluster
  nodes : List Node
deriving DecidableEq

/-! ### Root-rotation reconciler (spec section 4.4)

Modelled from the spec: the root-rotation reconciler of the CA server is not
part of the provided source tree (only its tests are), so the control loop is
translated from spec section 4.4. -/

/-- Modelled from the spec: the exported per-pass rotation batch bound
IssuanceStateRotateMaxBatchSize (spec section 6 gives 64 as the indicative
value). -/
def IssuanceStateRotateMaxBatchSize : Nat := 64

/-- Modelled from the spec: wantsRotation(node) holds for an accepted node
whose presented issuer is not the rotation target and that has not already
been commanded to rotate. -/
def wantsRotation (target : NodeTLSInfo) (n : Node) : Bool :=
  decide (n.membership = NodeMembership.accepted ∧
    n.tlsInfo ≠ some target ∧
    n.certificate.status.state ≠ IssuanceState.rotate)

/-- Modelled from the spec: converged(node) - an accepted node must be Issued
with tlsInfo equal to the rotation target; non-members are vacuously
converged. -/
def convergedNode (target : NodeTLSInfo) (n : Node) : Bool :=
  decide (n.membership = NodeMembership.accepted →
    (n.certificate.status.state = IssuanceState.issued ∧ n.tlsInfo = some target))

/-- Modelled from the spec: commanding a node to rotate sets
status.state = Rotate and touches nothing else (in particular the issued
certificate is not cleared). -/
def setRotate (n : Node) : Node :=
  { n with certificate :=
      { n.certificate with status :=
          { n.certificate.status with state := IssuanceState.rotate } } }

/-- Modelled from the spec: one batch update of a reconciliation pass - walk
the node snapshot and set status.state = Rotate on at most the given budget of
nodes satisfying wantsRotation, leaving every other node untouched. -/
def rotateBatch (target : NodeTLSInfo) : Nat → List Node → List Node
  | _, [] => []
  | 0, ns => ns
  | Nat.succ budget, n :: ns =>
    if wantsRotation target n then
      setRotate n :: rotateBatch target budget ns
    else
      n :: rotateBatch target (Nat.succ budget) ns

/-- Modelled from the spec: committing rotation completion replaces the
cluster root CA in one transaction - the rotation cert and key become the
root, the hash is recomputed over the new cert, the join tokens are
regenerated (the freshly generated pair is a parameter, standing for the
token-generation library call) and the rootRotation field is cleared. -/
def completeRotation (hash : String → String) (regenTokens : JoinTokens)
    (rot : RootRotation) : RootCA :=
  { caCert := rot.caCert
    caKey := rot.caKey
    caCertHash := hash rot.caCert
    joinTokens := regenTokens
    rootRotation := none }

/-- Modelled from the spec: one pass of the root-rotation control loop (spec
section 4.4, steps 1-4).  issuerOf derives the target TLS issuer from the
rotation CA cert, hash is the digest function and regenTokens the freshly
generated join tokens used if this pass commits completion.  If no rotation is
in progress the pass changes nothing. -/
def rootReconcilePass (hash : String → String) (issuerOf : String → NodeTLSInfo)
    (regenTokens : JoinTokens) (st : CAState) : CAState :=
  match st.cluster.rootCA.rootRotation with
  | none => st
  | some rot =>
    if st.nodes.all (fun n => !(wantsRotation (issuerOf rot.caCert) n)) &&
        st.nodes.all (convergedNode (issuerOf rot.caCert)) then
      { st with cluster :=
          { st.cluster with rootCA := completeRotation hash regenTokens rot } }
    else
      { st with nodes :=
          rotateBatch (issuerOf rot.caCert) IssuanceStateRotateMaxBatchSize st.nodes }

/-- Modelled from the spec: the reconciler runs passes periodically; this is
the k-fold iteration of a single pass. -/
def reconcileSteps (hash : String → String) (issuerOf : String → NodeTLSInfo)
    (regenTokens : JoinTokens) : Nat → CAState → CAState
  | 0, st => st
  | Nat.succ k, st =>
    reconcileSteps hash issuerOf regenTokens k
      (rootReconcilePass hash issuerOf regenTokens st)

/-- Number of nodes in a state satisfying wantsRotation - the measure that a
reconciliation pass drives to zero. -/
def countWants (target : NodeTLSInfo) (st : CAState) : Nat :=
  st.nodes.countP (wantsRotation target)

/-- Whether a pair of before/after node records witnesses a fresh transition
to Rotate. -/
def newlyRotatedPair (p : Node × Node) : Bool :=
  decide (p.1.certificate.status.state ≠ IssuanceState.rotate ∧
    p.2.certificate.status.state = IssuanceState.rotate)

/-- Number of node records newly transitioned to Rotate between two snapshots
of the node table (compared position by position). -/
def newlyRotatedCount (old new : List Node) : Nat :=
  (old.zip new).countP newlyRotatedPair

/-! ### CA RPC surface: IssueNodeCertificate (spec section 4.1)

Modelled from the spec: the CA server request handlers are not part of the
provided source tree (only their tests are), so IssueNodeCertificate is
translated from spec section 4.1. -/

/-- gRPC-compatible error codes used by the CA RPC surface. -/
inductive GrpcCode where
  | notFound
  | invalidArgument
  | unauthenticated
  | permissionDenied
  | unavailable
deriving DecidableEq

/-- The TLS client identity a caller presents, when it presents a valid client
certificate: the node id, role and organization baked into the cert.  A caller
with no valid client certificate from this cluster presents nothing. -/
structure CallerInfo where
  nodeID : String
  role : NodeRole
  org : String
deriving DecidableEq

/-- IssueNodeCertificate request: a CSR, a requested role and an optional join
token. -/
structure IssueRequest where
  csr : String
  role : NodeRole
  token : Option String
deriving DecidableEq

/-- IssueNodeCertificate response: the node id and its membership. -/
structure IssueResponse where
  nodeID : String
  membership : NodeMembership
deriving DecidableEq

/-- The join token of the cluster for a given role. -/
def joinTokenForRole (tokens : JoinTokens) : NodeRole → String
  | NodeRole.worker => tokens.worker
  | NodeRole.manager => tokens.manager

/-- Modelled from the spec: a presented token is valid iff it equals the
cluster's join token for the requested role at the moment of the call. -/
def validJoinToken (cl : Cluster) (req : IssueRequest) : Bool :=
  req.token == some (joinTokenForRole cl.rootCA.joinTokens req.role)

/-- Modelled from the spec: the node record persisted by a new admission -
membership Accepted, status.state Pending, certificate.csr the submitted CSR,
certificate.role the requested role. -/
def newNodeRecord (freshID : String) (req : IssueRequest) : Node :=
  { id := freshID
    membership := NodeMembership.accepted
    desiredRole := req.role
    tlsInfo := none
    certificate :=
      { csr := some req.csr
        certificate := none
        role := req.role
        status := { state := IssuanceState.pending, err := "" } } }

/-- Modelled from the spec: the renewal update of an existing node record -
the new CSR is stored and the issuance state returns to Renew so the signing
pool picks the node up again. -/
def renewNodeRecord (req : IssueRequest) (n : Node) : Node :=
  { n with certificate :=
      { n.certificate with
          csr := some req.csr
          status := { state := IssuanceState.renew, err := "" } } }

/-- Modelled from the spec: the new-admission path of IssueNodeCertificate.
The token must equal the cluster's join token for the requested role
(otherwise Unauthenticated with the fixed message, and no state change); the
CSR must be non-empty (otherwise InvalidArgument); on success a fresh node
record is appended. -/
def admitNewNode (freshID : String) (cl : Cluster) (nodes : List Node)
    (req : IssueRequest) :
    List Node × Except (GrpcCode × String) IssueResponse :=
  if validJoinToken cl req then
    if req.csr = "" then
      (nodes, Except.error (GrpcCode.invalidArgument, "request without CSR"))
    else
      (nodes ++ [newNodeRecord freshID req],
        Except.ok { nodeID := freshID, membership := NodeMembership.accepted })
  else
    (nodes, Except.error (GrpcCode.unauthenticated,
      "A valid join token is necessary to join this cluster"))

/-- Modelled from the spec: the renewal path of IssueNodeCertificate.  The
existing node id is reused and the token is ignored; the requested role must
match the caller's existing role unless the caller is a manager. -/
def renewNodeCertificate (nodes : List Node) (c : CallerInfo)
    (req : IssueRequest) :
    List Node × Except (GrpcCode × String) IssueResponse :=
  if req.role ≠ c.role ∧ c.role ≠ NodeRole.manager then
    (nodes, Except.error (GrpcCode.permissionDenied,
      "Permission denied: unauthorized peer role"))
  else if req.csr = "" then
    (nodes, Except.error (GrpcCode.invalidArgument, "request without CSR"))
  else
    match nodes.find? (fun n => n.id == c.nodeID) with
    | none => (nodes, Except.error (GrpcCode.notFound, "node not found"))
    | some n =>
      (nodes.map (fun m => if m.id == c.nodeID then renewNodeRecord req m else m),
        Except.ok { nodeID := c.nodeID, membership := n.membership })

/-- Modelled from the spec: IssueNodeCertificate (spec section 4.1).  Renewal
is selected iff the caller presents a valid client certificate whose
organization equals this cluster's organization (the cluster id); otherwise
the call is a new admission, and a caller from a different organization
without a valid token is refused with PermissionDenied.  The returned node
table is the (possibly unchanged) store state after the call. -/
def issueNodeCertificate (freshID : String) (cl : Cluster) (nodes : List Node)
    (caller : Option CallerInfo) (req : IssueRequest) :
    List Node × Except (GrpcCode × String) IssueResponse :=
  match caller with
  | none => admitNewNode freshID cl nodes req
  | some c =>
    if c.org = cl.id then
      renewNodeCertificate nodes c req
    else if validJoinToken cl req then
      admitNewNode freshID cl nodes req
    else
      (nodes, Except.error (GrpcCode.permissionDenied,
        "Permission denied: remote certificate not part of organization"))

/-! ### Signing worker pool (spec section 4.2)

Modelled from the spec: the signing worker pool is not part of the provided
source tree, so the per-job algorithm is translated from spec sections 4.2 and
4.3. -/

/-- Modelled from the spec: one signing job over a single node record.  Only
an accepted node in state Pending or Renew that carries a CSR is signed
(state Rotate is left to the agent, which must first submit a fresh CSR via a
renewal call; Issued and Failed are terminal).  decodeCSR stands for the CSR
parsing library call; on decode failure the status becomes Failed with the
"CSR Decode failed" message and nothing else changes.  sign stands for the
local or external signer; a transient signer failure (none) leaves the node
unchanged so the job is retried later.  On success the certificate is stored
and the status becomes Issued, with the certificate role left intact. -/
def signNode (decodeCSR : String → Except String Unit)
    (sign : String → NodeRole → Option String) (n : Node) : Node :=
  if n.membership = NodeMembership.accepted ∧
      (n.certificate.status.state = IssuanceState.pending ∨
        n.certificate.status.state = IssuanceState.renew) then
    match n.certificate.csr with
    | none => n
    | some csr =>
      match decodeCSR csr with
      | Except.error e =>
        { n with certificate :=
            { n.certificate with status :=
                { state := IssuanceState.failed,
                  err := "CSR Decode failed: " ++ e } } }
      | Except.ok _ =>
        match sign csr n.certificate.role with
        | none => n
        | some cert =>
          { n with certificate :=
              { n.certificate with
                  certificate := some cert
                  status := { state := IssuanceState.issued, err := "" } } }
  else n

/-! ### SecurityConfig hot-swap: UpdateRootCA (spec section 4.5)

Modelled from the spec: the SecurityConfig holder and UpdateRootCA are not
part of the provided source tree, so they are translated from spec
section 4.5. -/

/-- A local signer: the certificate it signs under and its key. -/
structure Signer where
  cert : String
  key : String
deriving DecidableEq

/-- The process-local active root CA: trust roots, optional local signer and
intermediates. -/
structure ActiveRootCA where
  certs : String
  signer : Option Signer
  intermediates : String
deriving DecidableEq

/-- The process-local security configuration: the active root CA and the
external CA URLs usable with the current signing root. -/
structure SecurityConfig where
  rootCA : ActiveRootCA
  externalCAUrls : List String
deriving DecidableEq

/-- Modelled from the spec: build the candidate active root CA from the
cluster (spec section 4.5 step 1).  The trust root is always
cluster.rootCA.caCert; while a rotation is present the signing material and
the cross-signed intermediate come from the rotation (an empty key meaning an
external-only signer). -/
def buildRootCA (cl : Cluster) : ActiveRootCA :=
  match cl.rootCA.rootRotation with
  | some rot =>
    { certs := cl.rootCA.caCert
      signer :=
        if rot.caKey = "" then none
        else some { cert := rot.crossSignedCACert, key := rot.caKey }
      intermediates := rot.crossSignedCACert }
  | none =>
    { certs := cl.rootCA.caCert
      signer :=
        if cl.rootCA.caKey = "" then none
        else some { cert := cl.rootCA.caCert, key := cl.rootCA.caKey }
      intermediates := "" }

/-- The CA certificate signing is currently performed under: the rotation
cert while a rotation is in progress, the root cert otherwise. -/
def signingCACert (cl : Cluster) : String :=
  match cl.rootCA.rootRotation with
  | some rot => rot.caCert
  | none => cl.rootCA.caCert

/-- Modelled from the spec: build the candidate external CA from the cluster
spec (spec section 4.5 step 3) - keep the URLs whose declared CA cert matches
the current signing root, an empty declared cert standing for the non-rotation
root. -/
def buildExternalCA (cl : Cluster) : List String :=
  (cl.externalCAs.filter (fun e =>
    (if e.caCert = "" then cl.rootCA.caCert else e.caCert) = signingCACert cl)).map
    (fun e => e.url)

/-- Modelled from the spec: UpdateRootCA (spec section 4.5).  A candidate
configuration is built from the cluster; the trust root is persisted to
durable storage (persistTrustRoot stands for that write, returning false on
failure); on write failure the swap is aborted and the existing configuration
remains authoritative, otherwise the candidate is swapped in atomically. -/
def updateRootCA (persistTrustRoot : String → Bool) (cl : Cluster)
    (current : SecurityConfig) : SecurityConfig :=
  if persistTrustRoot cl.rootCA.caCert then
    { rootCA := buildRootCA cl, externalCAUrls := buildExternalCA cl }
  else current

/-! ### Store tables (manager/state/store)

The network table operations are translated from
manager/state/store/networks.go and the node table operations from the node
table source file.  The generic transaction primitives (tx.create, tx.update,
tx.delete, tx.lookup) live in store code outside the provided tree; they are
modelled from the behaviour the table files document: create returns ErrExist
if the id is already taken, update and delete return ErrNotExist if the object
does not exist, and lookup finds an object through an index. -/

/-- Errors surfaced by the store table operations. -/
inductive StoreError where
  | errExist
  | errNotExist
  | errNameConflict
deriving DecidableEq

/-- A network object: its id and its Spec.Annotations.Name. -/
structure Network where
  id : String
  name : String
deriving DecidableEq

/-- Modelled from the spec: the generic tx.create over an id-indexed table -
fails with ErrExist if the id is already taken, otherwise inserts. -/
def txCreate {α : Type} (getID : α → String) (tbl : List α) (x : α) :
    Except StoreError (List α) :=
  if tbl.any (fun y => getID y == getID x) then Except.error StoreError.errExist
  else Except.ok (tbl ++ [x])

/-- Modelled from the spec: the generic tx.update over an id-indexed table -
fails with ErrNotExist if no object has the id, otherwise replaces the object
with that id. -/
def txUpdate {α : Type} (getID : α → String) (tbl : List α) (x : α) :
    Except StoreError (List α) :=
  if tbl.any (fun y => getID y == getID x) then
    Except.ok (tbl.map (fun y => if getID y == getID x then x else y))
  else Except.error StoreError.errNotExist

/-- Modelled from the spec: the generic tx.delete over an id-indexed table -
fails with ErrNotExist if no object has the id, otherwise removes it. -/
def txDelete {α : Type} (getID : α → String) (tbl : List α) (id : String) :
    Except StoreError (List α) :=
  if tbl.any (fun y => getID y == id) then
    Except.ok (tbl.filter (fun y => !(getID y == id)))
  else Except.error StoreError.errNotExist

/-- Modelled from the spec: tx.lookup through the unique name index of the
network table (networkIndexerByName indexes Spec.Annotations.Name). -/
def lookupNetworkByName (tbl : List Network) (name : String) : Option Network :=
  tbl.find? (fun m => m.name == name)

/-- CreateNetwork adds a new network to the store: it first ensures the name
is not already in use (ErrNameConflict otherwise) and then runs the generic
create. -/
def CreateNetwork (tbl : List Network) (n : Network) :
    Except StoreError (List Network) :=
  if (lookupNetworkByName tbl n.name).isSome then
    Except.error StoreError.errNameConflict
  else txCreate Network.id tbl n

/-- UpdateNetwork updates an existing network: it first ensures the name is
either not in use or already used by this same network (ErrNameConflict
otherwise) and then runs the generic update. -/
def UpdateNetwork (tbl : List Network) (n : Network) :
    Except StoreError (List Network) :=
  match lookupNetworkByName tbl n.name with
  | some existing =>
    if existing.id ≠ n.id then Except.error StoreError.errNameConflict
    else txUpdate Network.id tbl n
  | none => txUpdate Network.id tbl n

/-- DeleteNetwork removes a network from the store by id. -/
def DeleteNetwork (tbl : List Network) (id : String) :
    Except StoreError (List Network) :=
  txDelete Network.id tbl id

/-- CreateNode adds a new node to the store; the node table has no unique name
index, so only the generic create applies. -/
def CreateNode (tbl : List Node) (n : Node) : Except StoreError (List Node) :=
  txCreate Node.id tbl n

/-- DeleteNode removes a node from the store by id. -/
def DeleteNode (tbl : List Node) (id : String) : Except StoreError (List Node) :=
  txDelete Node.id tbl id

/-- The deletion loop of ObjectStoreConfig.Restore: delete the listed ids one
by one. -/
def deleteIDs {α : Type} (getID : α → String) :
    List String → List α → Except StoreError (List α)
  | [], tbl => Except.ok tbl
  | id :: ids, tbl =>
    match txDelete getID tbl id with
    | Except.error e => Except.error e
    | Except.ok tbl' => deleteIDs getID ids tbl'

/-- The creation loop of the network table's Restore: create the snapshot
networks one by one with CreateNetwork. -/
def createAllNetworks : List Network → List Network → Except StoreError (List Network)
  | [], tbl => Except.ok tbl
  | n :: snap, tbl =>
    match CreateNetwork tbl n with
    | Except.error e => Except.error e
    | Except.ok tbl' => createAllNetworks snap tbl'

/-- The creation loop of the node table's Restore: create the snapshot nodes
one by one with CreateNode. -/
def createAllNodes : List Node → List Node → Except StoreError (List Node)
  | [], tbl => Except.ok tbl
  | n :: snap, tbl =>
    match CreateNode tbl n with
    | Except.error e => Except.error e
    | Except.ok tbl' => createAllNodes snap tbl'

/-- ObjectStoreConfig.Restore for the network table: find all current
networks, delete each of them, then create every network of the snapshot. -/
def RestoreNetworks (tbl snapshot : List Network) :
    Except StoreError (List Network) :=
  match deleteIDs Network.id (tbl.map Network.id) tbl with
  | Except.error e => Except.error e
  | Except.ok tbl' => createAllNetworks snapshot tbl'

/-- ObjectStoreConfig.Restore for the node table: find all current nodes,
delete each of them, then create every node of the snapshot. -/
def RestoreNodes (tbl snapshot : List Node) : Except StoreError (List Node) :=
  match deleteIDs Node.id (tbl.map Node.id) tbl with
  | Except.error e => Except.error e
  | Except.ok tbl' => createAllNodes snapshot tbl'

/-- ObjectStoreConfig.Save for either table: FindAll over the table. -/
def SaveTable {α : Type} (tbl : List α) : List α := tbl

/-- No two objects of the table share a name. -/
def namesUnique (tbl : List Network) : Prop :=
  tbl.Pairwise (fun a b => a.name ≠ b.name)

/-- No two objects of the table share an id. -/
def idsUnique {α : Type} (getID : α → String) (tbl : List α) : Prop :=
  tbl.Pairwise (fun a b => getID a ≠ getID b)

/-! ### Auxiliary notions used by the statements and concrete instances used
by the closed corollaries -/

/-- Number of nodes currently in issuance state Rotate. -/
def countRotate (ns : List Node) : Nat :=
  ns.countP (fun n => decide (n.certificate.status.state = IssuanceState.rotate))

/-- The relation between a node record before and after any number of
root-rotation reconciliation passes: a pass either leaves a record alone or,
for an accepted member, commands it to rotate. -/
def stepRel (n n' : Node) : Prop :=
  n' = n ∨ (n.membership = NodeMembership.accepted ∧ n' = setRotate n)

/-- A concrete stand-in for the digest library call. -/
def demoHash (c : String) : String := "sha256:" ++ c

/-- A concrete stand-in for the issuer-extraction library call. -/
def demoIssuerOf (c : String) : NodeTLSInfo :=
  { trustRoot := "trust:" ++ c
    certIssuerPublicKey := "pub:" ++ c
    certIssuerSubject := "sub:" ++ c }

/-- A concrete pair of freshly generated join tokens. -/
def demoTokens : JoinTokens :=
  { worker := "SWMTKN-1-worker-2", manager := "SWMTKN-1-manager-2" }

/-- A concrete in-progress root rotation. -/
def demoRotation : RootRotation :=
  { caCert := "newCA", caKey := "newKey", crossSignedCACert := "crossSigned" }

/-- The TLS info of a node still presenting the old root. -/
def demoOldTLS : NodeTLSInfo :=
  { trustRoot := "trust:oldCA"
    certIssuerPublicKey := "pub:oldCA"
    certIssuerSubject := "sub:oldCA" }

/-- A concrete node record, in the shape the reconciler tests build them. -/
def mkNode (id : String) (member : Bool) (s : IssuanceState)
    (t : Option NodeTLSInfo) : Node :=
  { id := id
    membership := if member then NodeMembership.accepted else NodeMembership.pending
    desiredRole := NodeRole.worker
    tlsInfo := t
    certificate :=
      { csr := none
        certificate := none
        role := NodeRole.worker
        status := { state := s, err := "" } } }

/-- A concrete cluster, with or without an in-progress rotation. -/
def demoCluster (rot : Option RootRotation) : Cluster :=
  { id := "cluster-org"
    rootCA :=
      { caCert := "oldCA"
        caKey := "oldKey"
        caCertHash := "sha256:oldCA"
        joinTokens := { worker := "SWMTKN-1-worker", manager := "SWMTKN-1-manager" }
        rootRotation := rot }
    externalCAs := [] }

/-- Six nodes in mixed states, as in the mixed-state rotation scenario: a
pending non-member and five members in states Issued, Renew, Rotate, Pending
and Failed, none reporting TLS info. -/
def demoState6 : CAState :=
  { cluster := demoCluster (some demoRotation)
    nodes :=
      [ mkNode "0" false IssuanceState.pending none
      , mkNode "1" true IssuanceState.issued none
      , mkNode "2" true IssuanceState.renew none
      , mkNode "3" true IssuanceState.rotate none
      , mkNode "4" true IssuanceState.pending none
      , mkNode "5" true IssuanceState.failed none ] }

/-- A state where every accepted node has converged to the rotation target. -/
def demoStateDone : CAState :=
  { cluster := demoCluster (some demoRotation)
    nodes :=
      [ mkNode "0" false IssuanceState.pending none
      , mkNode "1" true IssuanceState.issued (some (demoIssuerOf "newCA"))
      , mkNode "3" true IssuanceState.issued (some (demoIssuerOf "newCA")) ] }

/-- Twice the batch size of issued member nodes, and a fresh rotation. -/
def demoStateBig : CAState :=
  { cluster := demoCluster (some demoRotation)
    nodes := List.replicate (2 * IssuanceStateRotateMaxBatchSize)
      (mkNode "n" true IssuanceState.issued none) }

/-- A state after an aborted rotation: no rootRotation, one node still in
Rotate. -/
def demoStateAborted : CAState :=
  { cluster := demoCluster none
    nodes :=
      [ mkNode "1" true IssuanceState.issued (some demoOldTLS)
      , mkNode "2" true IssuanceState.rotate (some demoOldTLS) ] }

/-- A new-admission request carrying a wrong token. -/
def demoReqBadTok : IssueRequest :=
  { csr := "csr-bytes", role := NodeRole.worker, token := some "wrong" }

/-- A new-admission request carrying a garbage CSR and the valid worker
token of demoCluster. -/
def demoReqGarbage : IssueRequest :=
  { csr := "random garbage", role := NodeRole.worker,
    token := some "SWMTKN-1-worker" }

/-- A CSR decoder that always fails, standing in for the parse of garbage
CSR bytes. -/
def demoDecodeFail : String → Except String Unit :=
  fun _ => Except.error "not a csr"

/-- A CSR decoder that always succeeds. -/
def demoDecodeOk : String → Except String Unit := fun _ => Except.ok ()

/-- A signer that always produces the same certificate bytes. -/
def demoSign : String → NodeRole → Option String := fun _ _ => some "cert"

/-- The security configuration active before an UpdateRootCA call. -/
def demoOldConfig : SecurityConfig :=
  { rootCA :=
      { certs := "oldCA"
        signer := some { cert := "oldCA", key := "oldKey" }
        intermediates := "" }
    externalCAUrls := [] }

/-! ## Basic lemmas about the reconciler's node mutation -/

theorem setRotate_state (n : Node) :
    (setRotate n).certificate.status.state = IssuanceState.rotate := rfl

theorem setRotate_membership (n : Node) :
    (setRotate n).membership = n.membership := rfl

theorem setRotate_tlsInfo (n : Node) : (setRotate n).tlsInfo = n.tlsInfo := rfl

theorem setRotate_idem (n : Node) : setRotate (setRotate n) = setRotate n := rfl

theorem wantsRotation_setRotate (target : NodeTLSInfo) (n : Node) :
    wantsRotation target (setRotate n) = false := by
  simp [wantsRotation, setRotate]

theorem wantsRotation_accepted {target : NodeTLSInfo} {n : Node}
    (h : wantsRotation target n = true) :
    n.membership = NodeMembership.accepted := by
  simp only [wantsRotation, decide_eq_true_eq] at h
  exact h.1

theorem not_wantsRotation_state {target : NodeTLSInfo} {n : Node}
    (h : wantsRotation target n = false)
    (hacc : n.membership = NodeMembership.accepted)
    (htls : n.tlsInfo ≠ some target) :
    n.certificate.status.state = IssuanceState.rotate := by
  simp only [wantsRotation, decide_eq_false_iff_not, not_and, not_not] at h
  exact h hacc htls

/-! ## Claim theorems: completion, abort, RPC errors, signing, hot swap -/

/-- Claim C1: with a root rotation present, if every accepted node is Issued
with tlsInfo equal to the rotation target (so no accepted node satisfies
wantsRotation), one reconciliation pass commits completion in one step:
cluster.rootCA.caCert becomes rootRotation.caCert, caKey becomes
rootRotation.caKey, caCertHash becomes the digest of rootRotation.caCert, the
join tokens are replaced by the freshly regenerated pair, rootRotation is
cleared, and the node table is untouched. -/
theorem rotationCompletionCommit (hash : String → String)
    (issuerOf : String → NodeTLSInfo) (regenTokens : JoinTokens)
    (st : CAState) (rot : RootRotation)
    (hrot : st.cluster.rootCA.rootRotation = some rot)
    (hnowants : ∀ n ∈ st.nodes, wantsRotation (issuerOf rot.caCert) n = false)
    (hconv : ∀ n ∈ st.nodes, n.membership = NodeMembership.accepted →
      n.certificate.status.state = IssuanceState.issued ∧
        n.tlsInfo = some (issuerOf rot.caCert)) :
    (rootReconcilePass hash issuerOf regenTokens st).cluster.rootCA =
      { caCert := rot.caCert
        caKey := rot.caKey
        caCertHash := hash rot.caCert
        joinTokens := regenTokens
        rootRotation := none } ∧
    (rootReconcilePass hash issuerOf regenTokens st).nodes = st.nodes := by
  have h1 : st.nodes.all
      (fun n => !(wantsRotation (issuerOf rot.caCert) n)) = true := by
    rw [List.all_eq_true]
    intro n hn
    simp [hnowants n hn]
  have h2 : st.nodes.all (convergedNode (issuerOf rot.caCert)) = true := by
    rw [List.all_eq_true]
    intro n hn
    simp only [convergedNode, decide_eq_true_eq]
    exact hconv n hn
  unfold rootReconcilePass
  rw [hrot]
  simp only [h1, h2, Bool.and_self, if_true]
  exact ⟨rfl, trivial⟩

/-- Claim C4: if rootRotation is absent (for instance because an in-progress
rotation was aborted), a reconciliation pass changes nothing at all - in
particular every node still in Rotate keeps its status.state and tlsInfo. -/
theorem abortedRotationLeavesRotateNodes (hash : String → String)
    (issuerOf : String → NodeTLSInfo) (regenTokens : JoinTokens)
    (st : CAState) (hrot : st.cluster.rootCA.rootRotation = none) :
    rootReconcilePass hash issuerOf regenTokens st = st := by
  unfold rootReconcilePass
  rw [hrot]

/-- Claim C5: a new-admission IssueNodeCertificate call (no valid client
certificate presented) whose token is absent or different from the cluster's
join token for the requested role fails with Unauthenticated and the fixed
message, and leaves the node table unchanged. -/
theorem issueNewNodeBadToken (freshID : String) (cl : Cluster)
    (nodes : List Node) (req : IssueRequest)
    (h : req.token ≠ some (joinTokenForRole cl.rootCA.joinTokens req.role)) :
    issueNodeCertificate freshID cl nodes none req =
      (nodes, Except.error (GrpcCode.unauthenticated,
        "A valid join token is necessary to join this cluster")) := by
  have hv : validJoinToken cl req = false := by
    simp only [validJoinToken, beq_eq_false_iff_ne, ne_eq]
    exact h
  simp [issueNodeCertificate, admitNewNode, hv]

/-- Claim C6: a node whose issuance state was externally set to Rotate is not
picked up by the signing worker: without a renewal call carrying a fresh CSR
the signing job leaves the node record completely unchanged - same
certificate bytes, same role, still in Rotate. -/
theorem forceRotationIsNoop (decodeCSR : String → Except String Unit)
    (sign : String → NodeRole → Option String) (n : Node)
    (h : n.certificate.status.state = IssuanceState.rotate) :
    signNode decodeCSR sign n = n := by
  have hcond : ¬(n.membership = NodeMembership.accepted ∧
      (n.certificate.status.state = IssuanceState.pending ∨
        n.certificate.status.state = IssuanceState.renew)) := by
    rintro ⟨-, hp | hp⟩ <;> rw [h] at hp <;> cases hp
  unfold signNode
  rw [if_neg hcond]

/-- Claim C7: a new-admission call with the valid join token and a CSR that
fails to decode still succeeds as an admission - a node record with
membership Accepted and state Pending is appended - and the signing step then
marks that node Failed with an err message carrying "CSR Decode failed",
leaves the certificate empty, and never retries: signing a Failed node is a
no-op. -/
theorem invalidCSRFailsAfterAdmission (freshID : String) (cl : Cluster)
    (nodes : List Node) (req : IssueRequest) (e : String)
    (decodeCSR : String → Except String Unit)
    (sign : String → NodeRole → Option String)
    (htok : req.token = some (joinTokenForRole cl.rootCA.joinTokens req.role))
    (hcsr : req.csr ≠ "")
    (hdec : decodeCSR req.csr = Except.error e) :
    issueNodeCertificate freshID cl nodes none req =
      (nodes ++ [newNodeRecord freshID req],
        Except.ok { nodeID := freshID, membership := NodeMembership.accepted }) ∧
    (newNodeRecord freshID req).membership = NodeMembership.accepted ∧
    (signNode decodeCSR sign (newNodeRecord freshID req)).certificate.status.state
      = IssuanceState.failed ∧
    (signNode decodeCSR sign (newNodeRecord freshID req)).certificate.status.err
      = "CSR Decode failed: " ++ e ∧
    (signNode decodeCSR sign (newNodeRecord freshID req)).certificate.certificate
      = none ∧
    signNode decodeCSR sign (signNode decodeCSR sign (newNodeRecord freshID req))
      = signNode decodeCSR sign (newNodeRecord freshID req) := by
  have hv : validJoinToken cl req = true := by
    simp [validJoinToken, htok]
  have hsigned : signNode decodeCSR sign (newNodeRecord freshID req) =
      { (newNodeRecord freshID req) with certificate :=
          { (newNodeRecord freshID req).certificate with status :=
              { state := IssuanceState.failed,
                err := "CSR Decode failed: " ++ e } } } := by
    unfold signNode
    rw [if_pos (by exact ⟨rfl, Or.inl rfl⟩)]
    show (match decodeCSR req.csr with
      | Except.error e => _
      | Except.ok _ => _) = _
    rw [hdec]
  refine ⟨?_, rfl, ?_, ?_, ?_, ?_⟩
  · simp [issueNodeCertificate, admitNewNode, hv, hcsr]
  · rw [hsigned]
  · rw [hsigned]
  · rw [hsigned]; rfl
  · rw [hsigned]
    unfold signNode
    rw [if_neg (by rintro ⟨-, hp | hp⟩ <;> cases hp)]

/-! ## Lemmas about rotateBatch, the reconciliation pass and its iteration -/

theorem wantsRotation_not_rotate {target : NodeTLSInfo} {n : Node}
    (h : wantsRotation target n = true) :
    n.certificate.status.state ≠ IssuanceState.rotate := by
  simp only [wantsRotation, decide_eq_true_eq] at h
  exact h.2.2

theorem forall2_self {α : Type} {R : α → α → Prop} (h : ∀ a, R a a) :
    ∀ l : List α, List.Forall₂ R l l
  | [] => List.Forall₂.nil
  | a :: l => List.Forall₂.cons (h a) (forall2_self h l)

theorem rotateBatch_nil (target : NodeTLSInfo) (b : Nat) :
    rotateBatch target b [] = [] := by
  cases b <;> rfl

theorem rotateBatch_zero (target : NodeTLSInfo) (n : Node) (ns : List Node) :
    rotateBatch target 0 (n :: ns) = n :: ns := rfl

theorem rotateBatch_succ_pos (target : NodeTLSInfo) (b : Nat) (n : Node)
    (ns : List Node) (hw : wantsRotation target n = true) :
    rotateBatch target (Nat.succ b) (n :: ns) =
      setRotate n :: rotateBatch target b ns := by
  have h : rotateBatch target (Nat.succ b) (n :: ns) =
      if wantsRotation target n then setRotate n :: rotateBatch target b ns
      else n :: rotateBatch target (Nat.succ b) ns := rfl
  rw [h, if_pos hw]

theorem rotateBatch_succ_neg (target : NodeTLSInfo) (b : Nat) (n : Node)
    (ns : List Node) (hw : ¬(wantsRotation target n = true)) :
    rotateBatch target (Nat.succ b) (n :: ns) =
      n :: rotateBatch target (Nat.succ b) ns := by
  have h : rotateBatch target (Nat.succ b) (n :: ns) =
      if wantsRotation target n then setRotate n :: rotateBatch target b ns
      else n :: rotateBatch target (Nat.succ b) ns := rfl
  rw [h, if_neg hw]

theorem rotateBatch_rel (target : NodeTLSInfo) (b : Nat) (ns : List Node) :
    List.Forall₂ (fun n n' => n' = n ∨
      (wantsRotation target n = true ∧ n' = setRotate n))
      ns (rotateBatch target b ns) := by
  induction ns generalizing b with
  | nil =>
    rw [rotateBatch_nil]
    exact List.Forall₂.nil
  | cons n ns ih =>
    cases b with
    | zero =>
      rw [rotateBatch_zero]
      apply forall2_self
      intro a
      exact Or.inl rfl
    | succ b =>
      by_cases hw : wantsRotation target n = true
      · rw [rotateBatch_succ_pos target b n ns hw]
        exact List.Forall₂.cons (Or.inr ⟨hw, rfl⟩) (ih b)
      · rw [rotateBatch_succ_neg target b n ns hw]
        exact List.Forall₂.cons (Or.inl rfl) (ih (Nat.succ b))

theorem newlyRotatedPair_self (n : Node) : newlyRotatedPair (n, n) = false := by
  rw [newlyRotatedPair, decide_eq_false_iff_not]
  rintro ⟨h1, h2⟩
  exact h1 h2

theorem newlyRotatedCount_self (l : List Node) : newlyRotatedCount l l = 0 := by
  induction l with
  | nil => rfl
  | cons n l ih =>
    unfold newlyRotatedCount at ih ⊢
    rw [List.zip_cons_cons, List.countP_cons, ih, newlyRotatedPair_self]
    rfl

theorem newlyRotatedCount_rotateBatch (target : NodeTLSInfo) (b : Nat)
    (ns : List Node) :
    newlyRotatedCount ns (rotateBatch target b ns) ≤ b := by
  induction ns generalizing b with
  | nil => exact Nat.zero_le b
  | cons n ns ih =>
    cases b with
    | zero =>
      rw [rotateBatch_zero, newlyRotatedCount_self]
    | succ b =>
      by_cases hw : wantsRotation target n = true
      · rw [rotateBatch_succ_pos target b n ns hw]
        unfold newlyRotatedCount
        rw [List.zip_cons_cons, List.countP_cons]
        have h1 := ih b
        unfold newlyRotatedCount at h1
        have h2 : (if newlyRotatedPair (n, setRotate n) then 1 else 0) ≤ 1 := by
          split <;> omega
        exact Nat.le_trans (Nat.add_le_add h1 h2) (Nat.le_refl _)
      · rw [rotateBatch_succ_neg target b n ns hw]
        unfold newlyRotatedCount
        rw [List.zip_cons_cons, List.countP_cons, newlyRotatedPair_self]
        have h1 := ih (Nat.succ b)
        unfold newlyRotatedCount at h1
        simpa using h1

theorem countP_wants_rotateBatch (target : NodeTLSInfo) (b : Nat)
    (ns : List Node) :
    (rotateBatch target b ns).countP (wantsRotation target) =
      ns.countP (wantsRotation target) -
        min b (ns.countP (wantsRotation target)) := by
  induction ns generalizing b with
  | nil => simp [rotateBatch]
  | cons n ns ih =>
    cases b with
    | zero =>
      rw [rotateBatch_zero]
      omega
    | succ b =>
      by_cases hw : wantsRotation target n = true
      · have hsr : ¬(wantsRotation target (setRotate n) = true) := by
          rw [wantsRotation_setRotate]
          exact Bool.false_ne_true
        rw [rotateBatch_succ_pos target b n ns hw,
          List.countP_cons_of_neg _ _ hsr, List.countP_cons_of_pos _ _ hw]
        have h1 := ih b
        omega
      · rw [rotateBatch_succ_neg target b n ns hw,
          List.countP_cons_of_neg _ _ hw, List.countP_cons_of_neg _ _ hw]
        have h1 := ih (Nat.succ b)
        omega

theorem countRotate_rotateBatch_all (target : NodeTLSInfo) (b : Nat)
    (ns : List Node) (hall : ∀ n ∈ ns, wantsRotation target n = true) :
    countRotate (rotateBatch target b ns) = min b ns.length := by
  induction ns generalizing b with
  | nil => simp [rotateBatch, countRotate]
  | cons n ns ih =>
    have hw := hall n (List.mem_cons_self n ns)
    have htail : ∀ m ∈ ns, wantsRotation target m = true :=
      fun m hm => hall m (List.mem_cons_of_mem n hm)
    cases b with
    | zero =>
      rw [rotateBatch_zero]
      have hz : countRotate (n :: ns) = 0 := by
        unfold countRotate
        rw [List.countP_eq_zero]
        intro m hm
        simp only [decide_eq_true_eq]
        exact wantsRotation_not_rotate (hall m hm)
      rw [hz]
      omega
    | succ b =>
      rw [rotateBatch_succ_pos target b n ns hw]
      unfold countRotate
      have hh : ((fun n => decide (n.certificate.status.state =
          IssuanceState.rotate)) (setRotate n) : Bool) = true := by
        rw [decide_eq_true_eq]
        exact setRotate_state n
      rw [List.countP_cons_of_pos
        (fun n : Node => decide (n.certificate.status.state = IssuanceState.rotate))
        _ hh]
      have h1 := ih b htail
      unfold countRotate at h1
      rw [h1]
      simp only [List.length_cons]
      omega

theorem rootReconcilePass_none (hash : String → String)
    (issuerOf : String → NodeTLSInfo) (regenTokens : JoinTokens)
    (st : CAState) (hrot : st.cluster.rootCA.rootRotation = none) :
    rootReconcilePass hash issuerOf regenTokens st = st := by
  unfold rootReconcilePass
  rw [hrot]

theorem rootReconcilePass_some (hash : String → String)
    (issuerOf : String → NodeTLSInfo) (regenTokens : JoinTokens)
    (st : CAState) (rot : RootRotation)
    (hrot : st.cluster.rootCA.rootRotation = some rot) :
    rootReconcilePass hash issuerOf regenTokens st =
      if st.nodes.all (fun n => !(wantsRotation (issuerOf rot.caCert) n)) &&
          st.nodes.all (convergedNode (issuerOf rot.caCert)) then
        { st with cluster :=
            { st.cluster with rootCA := completeRotation hash regenTokens rot } }
      else
        { st with nodes :=
            (rotateBatch (issuerOf rot.caCert) IssuanceStateRotateMaxBatchSize
              st.nodes) } := by
  unfold rootReconcilePass
  rw [hrot]

theorem rootReconcilePass_rotateBranch (hash : String → String)
    (issuerOf : String → NodeTLSInfo) (regenTokens : JoinTokens)
    (st : CAState) (rot : RootRotation)
    (hrot : st.cluster.rootCA.rootRotation = some rot)
    (hsome : ∃ n ∈ st.nodes, wantsRotation (issuerOf rot.caCert) n = true) :
    rootReconcilePass hash issuerOf regenTokens st =
      { st with nodes :=
          (rotateBatch (issuerOf rot.caCert) IssuanceStateRotateMaxBatchSize
            st.nodes) } := by
  rw [rootReconcilePass_some hash issuerOf regenTokens st rot hrot]
  have hcond : (st.nodes.all
      (fun n => !(wantsRotation (issuerOf rot.caCert) n)) &&
      st.nodes.all (convergedNode (issuerOf rot.caCert))) = false := by
    obtain ⟨n, hn, hw⟩ := hsome
    rw [Bool.and_eq_false_iff]
    left
    rw [Bool.eq_false_iff]
    intro hallb
    have := List.all_eq_true.mp hallb n hn
    rw [hw] at this
    cases this
  rw [hcond]
  rfl

theorem pass_nodes_rel (hash : String → String)
    (issuerOf : String → NodeTLSInfo) (regenTokens : JoinTokens)
    (st : CAState) :
    List.Forall₂ stepRel st.nodes
      (rootReconcilePass hash issuerOf regenTokens st).nodes := by
  cases hr : st.cluster.rootCA.rootRotation with
  | none =>
    rw [rootReconcilePass_none hash issuerOf regenTokens st hr]
    apply forall2_self
    intro a
    exact Or.inl rfl
  | some rot =>
    rw [rootReconcilePass_some hash issuerOf regenTokens st rot hr]
    cases hc : (st.nodes.all
        (fun n => !(wantsRotation (issuerOf rot.caCert) n)) &&
        st.nodes.all (convergedNode (issuerOf rot.caCert))) with
    | true =>
      rw [if_pos rfl]
      apply forall2_self
      intro a
      exact Or.inl rfl
    | false =>
      rw [if_neg Bool.false_ne_true]
      refine List.Forall₂.imp ?_
        (rotateBatch_rel (issuerOf rot.caCert)
          IssuanceStateRotateMaxBatchSize st.nodes)
      rintro a b (h | ⟨hw, h⟩)
      · exact Or.inl h
      · exact Or.inr ⟨wantsRotation_accepted hw, h⟩

theorem stepRel_trans {a b c : Node} (h1 : stepRel a b) (h2 : stepRel b c) :
    stepRel a c := by
  rcases h1 with h1 | ⟨ha, h1⟩
  · subst h1
    exact h2
  · subst h1
    rcases h2 with h2 | ⟨hb, h2⟩
    · subst h2
      exact Or.inr ⟨ha, rfl⟩
    · subst h2
      exact Or.inr ⟨ha, (setRotate_idem a).symm⟩

theorem forall2_stepRel_trans {l m r : List Node}
    (h1 : List.Forall₂ stepRel l m) (h2 : List.Forall₂ stepRel m r) :
    List.Forall₂ stepRel l r := by
  induction h1 generalizing r with
  | nil =>
    cases h2
    exact List.Forall₂.nil
  | cons hab h1 ih =>
    cases h2 with
    | cons hbc h2 => exact List.Forall₂.cons (stepRel_trans hab hbc) (ih h2)

theorem steps_nodes_rel (hash : String → String)
    (issuerOf : String → NodeTLSInfo) (regenTokens : JoinTokens)
    (k : Nat) (st : CAState) :
    List.Forall₂ stepRel st.nodes
      (reconcileSteps hash issuerOf regenTokens k st).nodes := by
  induction k generalizing st with
  | zero =>
    apply forall2_self
    intro a
    exact Or.inl rfl
  | succ k ih =>
    exact forall2_stepRel_trans
      (pass_nodes_rel hash issuerOf regenTokens st)
      (ih (rootReconcilePass hash issuerOf regenTokens st))

theorem countP_le_of_forall2 {α : Type} {R : α → α → Prop} {p : α → Bool}
    {l l' : List α} (h : List.Forall₂ R l l')
    (hp : ∀ a b, R a b → p b = true → p a = true) :
    l'.countP p ≤ l.countP p := by
  induction h with
  | nil => exact Nat.le_refl 0
  | @cons a b l l' hab h ih =>
    rw [List.countP_cons, List.countP_cons]
    have hhead : (if p b then 1 else 0) ≤ (if p a then 1 else 0) := by
      by_cases hb : p b = true
      · rw [if_pos hb, if_pos (hp _ _ hab hb)]
      · rw [if_neg hb]
        exact Nat.zero_le _
    exact Nat.add_le_add ih hhead

theorem countWants_pass_le (hash : String → String)
    (issuerOf : String → NodeTLSInfo) (regenTokens : JoinTokens)
    (target : NodeTLSInfo) (st : CAState) :
    countWants target (rootReconcilePass hash issuerOf regenTokens st) ≤
      countWants target st := by
  unfold countWants
  refine countP_le_of_forall2 (pass_nodes_rel hash issuerOf regenTokens st) ?_
  rintro a b (h | ⟨ha, h⟩) hpb
  · subst h
    exact hpb
  · subst h
    rw [wantsRotation_setRotate] at hpb
    cases hpb

theorem countWants_steps_le (hash : String → String)
    (issuerOf : String → NodeTLSInfo) (regenTokens : JoinTokens)
    (target : NodeTLSInfo) (k : Nat) (st : CAState) :
    countWants target (reconcileSteps hash issuerOf regenTokens k st) ≤
      countWants target st := by
  induction k generalizing st with
  | zero => exact Nat.le_refl _
  | succ k ih =>
    exact Nat.le_trans
      (ih (rootReconcilePass hash issuerOf regenTokens st))
      (countWants_pass_le hash issuerOf regenTokens target st)

theorem steps_countWants_zero (hash : String → String)
    (issuerOf : String → NodeTLSInfo) (regenTokens : JoinTokens)
    (k : Nat) (st : CAState) (rot : RootRotation)
    (hrot : st.cluster.rootCA.rootRotation = some rot)
    (hk : countWants (issuerOf rot.caCert) st ≤ k) :
    countWants (issuerOf rot.caCert)
      (reconcileSteps hash issuerOf regenTokens k st) = 0 := by
  induction k generalizing st with
  | zero => exact Nat.le_zero.mp hk
  | succ k ih =>
    by_cases h0 : countWants (issuerOf rot.caCert) st = 0
    · have hle := countWants_steps_le hash issuerOf regenTokens
        (issuerOf rot.caCert) (Nat.succ k) st
      rw [h0] at hle
      exact Nat.le_zero.mp hle
    · have hpos : 0 < countWants (issuerOf rot.caCert) st :=
        Nat.pos_of_ne_zero h0
      have hsome : ∃ n ∈ st.nodes,
          wantsRotation (issuerOf rot.caCert) n = true := by
        unfold countWants at hpos
        exact List.countP_pos_iff.mp hpos
      have hbranch := rootReconcilePass_rotateBranch hash issuerOf regenTokens
        st rot hrot hsome
      have hrot' : (rootReconcilePass hash issuerOf regenTokens
          st).cluster.rootCA.rootRotation = some rot := by
        rw [hbranch]
        exact hrot
      have hbatch : 0 < IssuanceStateRotateMaxBatchSize := by decide
      have hcount' : countWants (issuerOf rot.caCert)
          (rootReconcilePass hash issuerOf regenTokens st) =
          countWants (issuerOf rot.caCert) st -
            min IssuanceStateRotateMaxBatchSize
              (countWants (issuerOf rot.caCert) st) := by
        rw [hbranch]
        unfold countWants
        exact countP_wants_rotateBatch (issuerOf rot.caCert)
          IssuanceStateRotateMaxBatchSize st.nodes
      exact ih (rootReconcilePass hash issuerOf regenTokens st) hrot'
        (by omega)

theorem combineRel {target : NodeTLSInfo} {l l' : List Node}
    (h : List.Forall₂ stepRel l l')
    (hall : ∀ n' ∈ l', wantsRotation target n' = false) :
    List.Forall₂ (fun n n' =>
      (n.membership = NodeMembership.accepted →
        n.tlsInfo ≠ some target →
        n'.certificate.status.state = IssuanceState.rotate) ∧
      (n.membership ≠ NodeMembership.accepted → n' = n)) l l' := by
  induction h with
  | nil => exact List.Forall₂.nil
  | @cons a b l l' hab h ih =>
    refine List.Forall₂.cons ⟨?_, ?_⟩
      (ih (fun n' hn' => hall n' (List.mem_cons_of_mem b hn')))
    · intro hacc htls
      have hb : wantsRotation target b = false :=
        hall b (List.mem_cons_self b l')
      rcases hab with hba | ⟨-, hba⟩
      · subst hba
        exact not_wantsRotation_state hb hacc htls
      · subst hba
        exact setRotate_state a
    · intro hnacc
      rcases hab with hba | ⟨ha, -⟩
      · exact hba
      · exact absurd ha hnacc

/-! ## The remaining reconciler claims -/

/-- Claim C2: while a root rotation is in progress, iterating the reconciler
(a number of passes bounded by the count of nodes that still want rotation)
puts every accepted node whose tlsInfo is absent or different from the
rotation target into state Rotate - including nodes that were Issued with a
stale tlsInfo - while every node whose membership is not Accepted is left
completely untouched. -/
theorem rotationDrivesMembersToRotate (hash : String → String)
    (issuerOf : String → NodeTLSInfo) (regenTokens : JoinTokens)
    (st : CAState) (rot : RootRotation)
    (hrot : st.cluster.rootCA.rootRotation = some rot) :
    List.Forall₂ (fun n n' =>
      (n.membership = NodeMembership.accepted →
        n.tlsInfo ≠ some (issuerOf rot.caCert) →
        n'.certificate.status.state = IssuanceState.rotate) ∧
      (n.membership ≠ NodeMembership.accepted → n' = n))
      st.nodes
      (reconcileSteps hash issuerOf regenTokens
        (countWants (issuerOf rot.caCert) st) st).nodes := by
  have h0 := steps_countWants_zero hash issuerOf regenTokens
    (countWants (issuerOf rot.caCert) st) st rot hrot (Nat.le_refl _)
  have hall : ∀ n' ∈ (reconcileSteps hash issuerOf regenTokens
      (countWants (issuerOf rot.caCert) st) st).nodes,
      wantsRotation (issuerOf rot.caCert) n' = false := by
    intro n' hn'
    unfold countWants at h0
    exact Bool.eq_false_iff.mpr (List.countP_eq_zero.mp h0 n' hn')
  exact combineRel
    (steps_nodes_rel hash issuerOf regenTokens
      (countWants (issuerOf rot.caCert) st) st)
    hall

/-- Claim C3: in any single reconciliation pass, the number of nodes newly
transitioned to Rotate is bounded by IssuanceStateRotateMaxBatchSize; and
starting from twice the batch size of accepted Issued nodes with no reported
TLS info and a fresh rotation, the first pass puts exactly
IssuanceStateRotateMaxBatchSize nodes into Rotate. -/
theorem rotationThrottled (hash : String → String)
    (issuerOf : String → NodeTLSInfo) (regenTokens : JoinTokens)
    (st : CAState) (rot : RootRotation)
    (hrot : st.cluster.rootCA.rootRotation = some rot)
    (hnodes : ∀ n ∈ st.nodes, n.membership = NodeMembership.accepted ∧
      n.certificate.status.state = IssuanceState.issued ∧ n.tlsInfo = none)
    (hlen : st.nodes.length = 2 * IssuanceStateRotateMaxBatchSize) :
    (∀ st' : CAState, newlyRotatedCount st'.nodes
        (rootReconcilePass hash issuerOf regenTokens st').nodes ≤
        IssuanceStateRotateMaxBatchSize) ∧
    countRotate (rootReconcilePass hash issuerOf regenTokens st).nodes =
      IssuanceStateRotateMaxBatchSize := by
  constructor
  · intro st'
    cases hr : st'.cluster.rootCA.rootRotation with
    | none =>
      rw [rootReconcilePass_none hash issuerOf regenTokens st' hr,
        newlyRotatedCount_self]
      exact Nat.zero_le _
    | some rot' =>
      rw [rootReconcilePass_some hash issuerOf regenTokens st' rot' hr]
      cases hc : (st'.nodes.all
          (fun n => !(wantsRotation (issuerOf rot'.caCert) n)) &&
          st'.nodes.all (convergedNode (issuerOf rot'.caCert))) with
      | true =>
        rw [if_pos rfl, newlyRotatedCount_self]
        exact Nat.zero_le _
      | false =>
        rw [if_neg Bool.false_ne_true]
        exact newlyRotatedCount_rotateBatch (issuerOf rot'.caCert)
          IssuanceStateRotateMaxBatchSize st'.nodes
  · have hall : ∀ n ∈ st.nodes,
        wantsRotation (issuerOf rot.caCert) n = true := by
      intro n hn
      obtain ⟨h1, h2, h3⟩ := hnodes n hn
      rw [wantsRotation, decide_eq_true_eq]
      refine ⟨h1, ?_, ?_⟩
      · rw [h3]
        intro h
        cases h
      · rw [h2]
        intro h
        cases h
    have hpos : 0 < st.nodes.length := by
      rw [hlen]
      decide
    obtain ⟨n, hn⟩ := List.exists_mem_of_length_pos hpos
    have hsome : ∃ n ∈ st.nodes,
        wantsRotation (issuerOf rot.caCert) n = true := ⟨n, hn, hall n hn⟩
    rw [rootReconcilePass_rotateBranch hash issuerOf regenTokens st rot hrot
      hsome]
    have := countRotate_rotateBatch_all (issuerOf rot.caCert)
      IssuanceStateRotateMaxBatchSize st.nodes hall
    rw [this, hlen]
    omega

/-- Claim C8: UpdateRootCA does not swap the live security configuration when
persisting the trust root to durable storage fails - the previously active
root CA (certs, signer, intermediates) and external CA set remain exactly as
they were. -/
theorem updateRootCANoSwapOnPersistFailure (persistTrustRoot : String → Bool)
    (cl : Cluster) (current : SecurityConfig)
    (h : persistTrustRoot cl.rootCA.caCert = false) :
    updateRootCA persistTrustRoot cl current = current := by
  unfold updateRootCA
  rw [h]
  simp

/-! ## Lemmas about the store tables -/

theorem nameInjective {tbl : List Network} (h : namesUnique tbl) :
    ∀ x ∈ tbl, ∀ y ∈ tbl, x.name = y.name → x = y := by
  induction tbl with
  | nil =>
    intro x hx
    cases hx
  | cons a t ih =>
    rw [namesUnique, List.pairwise_cons] at h
    intro x hx y hy hxy
    rcases List.mem_cons.mp hx with hxa | hxt
    · rcases List.mem_cons.mp hy with hya | hyt
      · rw [hxa, hya]
      · subst hxa
        exact absurd hxy (h.1 y hyt)
    · rcases List.mem_cons.mp hy with hya | hyt
      · subst hya
        exact absurd hxy.symm (h.1 x hxt)
      · exact ih h.2 x hxt y hyt hxy

theorem lookupNetworkByName_none {tbl : List Network} {name : String}
    (h : ∀ m ∈ tbl, m.name ≠ name) : lookupNetworkByName tbl name = none := by
  unfold lookupNetworkByName
  rw [List.find?_eq_none]
  intro m hm hb
  exact h m hm (eq_of_beq hb)

theorem lookupNetworkByName_isSome {tbl : List Network} {m : Network}
    {name : String} (hm : m ∈ tbl) (hname : m.name = name) :
    (lookupNetworkByName tbl name).isSome = true := by
  unfold lookupNetworkByName
  rw [List.find?_isSome]
  refine ⟨m, hm, ?_⟩
  rw [hname]
  exact beq_self_eq_true name

theorem lookupNetworkByName_some {tbl : List Network} {name : String}
    {m0 : Network} (h : lookupNetworkByName tbl name = some m0) :
    m0 ∈ tbl ∧ m0.name = name := by
  unfold lookupNetworkByName at h
  have hp := List.find?_some h
  exact ⟨List.mem_of_find?_eq_some h, eq_of_beq hp⟩

theorem UpdateNetwork_eq_none {tbl : List Network} {n : Network}
    (hl : lookupNetworkByName tbl n.name = none) :
    UpdateNetwork tbl n = txUpdate Network.id tbl n := by
  unfold UpdateNetwork
  rw [hl]

theorem UpdateNetwork_eq_some {tbl : List Network} {n m0 : Network}
    (hl : lookupNetworkByName tbl n.name = some m0) :
    UpdateNetwork tbl n =
      if m0.id ≠ n.id then Except.error StoreError.errNameConflict
      else txUpdate Network.id tbl n := by
  unfold UpdateNetwork
  rw [hl]

theorem txUpdate_ok {α : Type} (getID : α → String) {tbl : List α} {x : α}
    {tbl' : List α} (h : txUpdate getID tbl x = Except.ok tbl') :
    tbl' = tbl.map (fun y => if getID y == getID x then x else y) := by
  unfold txUpdate at h
  by_cases ha : tbl.any (fun y => getID y == getID x) = true
  · rw [if_pos ha] at h
    injection h with h
    exact h.symm
  · rw [if_neg ha] at h
    exact Except.noConfusion h

theorem txUpdate_ne_nameConflict {α : Type} (getID : α → String)
    (tbl : List α) (x : α) :
    txUpdate getID tbl x ≠ Except.error StoreError.errNameConflict := by
  unfold txUpdate
  by_cases ha : tbl.any (fun y => getID y == getID x) = true
  · rw [if_pos ha]
    intro h
    exact Except.noConfusion h
  · rw [if_neg ha]
    intro h
    injection h with h
    exact StoreError.noConfusion h

theorem txDelete_ok {α : Type} (getID : α → String) {tbl : List α}
    {id : String} {tbl' : List α}
    (h : txDelete getID tbl id = Except.ok tbl') :
    tbl' = tbl.filter (fun y => !(getID y == id)) := by
  unfold txDelete at h
  by_cases ha : tbl.any (fun y => getID y == id) = true
  · rw [if_pos ha] at h
    injection h with h
    exact h.symm
  · rw [if_neg ha] at h
    exact Except.noConfusion h

theorem CreateNetwork_ok {tbl : List Network} {n : Network}
    {tbl' : List Network} (h : CreateNetwork tbl n = Except.ok tbl') :
    tbl' = tbl ++ [n] ∧ (∀ m ∈ tbl, m.name ≠ n.name) ∧
      (∀ m ∈ tbl, m.id ≠ n.id) := by
  unfold CreateNetwork at h
  by_cases hs : (lookupNetworkByName tbl n.name).isSome = true
  · rw [if_pos hs] at h
    exact Except.noConfusion h
  · rw [if_neg hs] at h
    have hnone : lookupNetworkByName tbl n.name = none :=
      Option.not_isSome_iff_eq_none.mp hs
    unfold txCreate at h
    by_cases ha : tbl.any (fun y => Network.id y == Network.id n) = true
    · rw [if_pos ha] at h
      exact Except.noConfusion h
    · rw [if_neg ha] at h
      injection h with h
      refine ⟨h.symm, ?_, ?_⟩
      · intro m hm heq
        unfold lookupNetworkByName at hnone
        rw [List.find?_eq_none] at hnone
        refine hnone m hm ?_
        rw [heq]
        exact beq_self_eq_true n.name
      · intro m hm heq
        refine ha ?_
        rw [List.any_eq_true]
        refine ⟨m, hm, ?_⟩
        rw [show Network.id m = Network.id n from heq]
        exact beq_self_eq_true n.id

/-! ## Claim theorem: network name uniqueness -/

/-- Claim C9: network spec names are unique in the store.  CreateNetwork
returns ErrNameConflict whenever any existing network already holds the name;
UpdateNetwork returns ErrNameConflict exactly when a network with a different
id holds the name (so updating a network under its own name is not a name
conflict); and every successful create, update or delete preserves both name
uniqueness and id uniqueness of the table. -/
theorem networkNameUniqueness (tbl : List Network) (n : Network)
    (idArg : String) (hn : namesUnique tbl) (hi : idsUnique Network.id tbl) :
    ((∃ m ∈ tbl, m.name = n.name) →
      CreateNetwork tbl n = Except.error StoreError.errNameConflict) ∧
    (UpdateNetwork tbl n = Except.error StoreError.errNameConflict ↔
      ∃ m ∈ tbl, m.name = n.name ∧ m.id ≠ n.id) ∧
    (∀ tbl', CreateNetwork tbl n = Except.ok tbl' →
      namesUnique tbl' ∧ idsUnique Network.id tbl') ∧
    (∀ tbl', UpdateNetwork tbl n = Except.ok tbl' →
      namesUnique tbl' ∧ idsUnique Network.id tbl') ∧
    (∀ tbl', DeleteNetwork tbl idArg = Except.ok tbl' →
      namesUnique tbl' ∧ idsUnique Network.id tbl') := by
  have hn' : tbl.Pairwise (fun a b => a.name ≠ b.name) := hn
  have hi' : tbl.Pairwise (fun a b => a.id ≠ b.id) := hi
  refine ⟨?_, ⟨?_, ?_⟩, ?_, ?_, ?_⟩
  · rintro ⟨m, hm, hname⟩
    unfold CreateNetwork
    rw [if_pos (lookupNetworkByName_isSome hm hname)]
  · intro h
    cases hl : lookupNetworkByName tbl n.name with
    | none =>
      rw [UpdateNetwork_eq_none hl] at h
      exact absurd h (txUpdate_ne_nameConflict Network.id tbl n)
    | some m0 =>
      rw [UpdateNetwork_eq_some hl] at h
      by_cases hid : m0.id ≠ n.id
      · obtain ⟨hm0mem, hm0name⟩ := lookupNetworkByName_some hl
        exact ⟨m0, hm0mem, hm0name, hid⟩
      · rw [if_neg hid] at h
        exact absurd h (txUpdate_ne_nameConflict Network.id tbl n)
  · rintro ⟨m, hm, hname, hid⟩
    have hs := lookupNetworkByName_isSome hm hname
    obtain ⟨m0, hm0⟩ := Option.isSome_iff_exists.mp hs
    obtain ⟨hm0mem, hm0name⟩ := lookupNetworkByName_some hm0
    have hmm0 : m = m0 :=
      nameInjective hn m hm m0 hm0mem (hname.trans hm0name.symm)
    rw [UpdateNetwork_eq_some hm0, if_pos (by rw [← hmm0]; exact hid)]
  · intro tbl' h
    obtain ⟨htbl', hnames, hids⟩ := CreateNetwork_ok h
    subst htbl'
    constructor
    · rw [namesUnique, List.pairwise_append]
      refine ⟨hn', List.pairwise_singleton _ n, ?_⟩
      intro a ha b hb
      rw [List.mem_singleton] at hb
      subst hb
      exact hnames a ha
    · rw [idsUnique, List.pairwise_append]
      refine ⟨hi', List.pairwise_singleton _ n, ?_⟩
      intro a ha b hb
      rw [List.mem_singleton] at hb
      subst hb
      exact hids a ha
  · intro tbl' h
    have hcond : ∀ m ∈ tbl, m.name = n.name → m.id = n.id := by
      cases hl : lookupNetworkByName tbl n.name with
      | none =>
        intro m hm hname
        have := lookupNetworkByName_isSome hm hname
        rw [hl] at this
        exact absurd this (by simp)
      | some m0 =>
        rw [UpdateNetwork_eq_some hl] at h
        by_cases hid : m0.id ≠ n.id
        · rw [if_pos hid] at h
          exact Except.noConfusion h
        · intro m hm hname
          obtain ⟨hm0mem, hm0name⟩ := lookupNetworkByName_some hl
          have hmm0 : m = m0 :=
            nameInjective hn m hm m0 hm0mem (hname.trans hm0name.symm)
          rw [hmm0]
          exact not_not.mp hid
    have htbl' : tbl' =
        tbl.map (fun y => if Network.id y == Network.id n then n else y) := by
      cases hl : lookupNetworkByName tbl n.name with
      | none =>
        rw [UpdateNetwork_eq_none hl] at h
        exact txUpdate_ok Network.id h
      | some m0 =>
        rw [UpdateNetwork_eq_some hl] at h
        by_cases hid : m0.id ≠ n.id
        · rw [if_pos hid] at h
          exact Except.noConfusion h
        · rw [if_neg hid] at h
          exact txUpdate_ok Network.id h
    subst htbl'
    have hcomb := List.Pairwise.and hn' hi'
    constructor
    · rw [namesUnique, List.pairwise_map]
      refine List.Pairwise.imp_of_mem ?_ hcomb
      rintro a b ha hb ⟨hname, hid⟩
      by_cases hA : (Network.id a == Network.id n) = true
      · by_cases hB : (Network.id b == Network.id n) = true
        · exact absurd ((eq_of_beq hA).trans (eq_of_beq hB).symm) hid
        · rw [if_pos hA, if_neg hB]
          intro heq
          refine hB ?_
          rw [show Network.id b = Network.id n from hcond b hb heq.symm]
          exact beq_self_eq_true n.id
      · by_cases hB : (Network.id b == Network.id n) = true
        · rw [if_neg hA, if_pos hB]
          intro heq
          refine hA ?_
          rw [show Network.id a = Network.id n from hcond a ha heq]
          exact beq_self_eq_true n.id
        · rw [if_neg hA, if_neg hB]
          exact hname
    · rw [idsUnique, List.pairwise_map]
      refine List.Pairwise.imp_of_mem ?_ hcomb
      rintro a b ha hb ⟨hname, hid⟩
      by_cases hA : (Network.id a == Network.id n) = true
      · by_cases hB : (Network.id b == Network.id n) = true
        · exact absurd ((eq_of_beq hA).trans (eq_of_beq hB).symm) hid
        · rw [if_pos hA, if_neg hB]
          intro heq
          refine hB ?_
          rw [show Network.id b = Network.id n from heq.symm]
          exact beq_self_eq_true n.id
      · by_cases hB : (Network.id b == Network.id n) = true
        · rw [if_neg hA, if_pos hB]
          intro heq
          refine hA ?_
          rw [show Network.id a = Network.id n from heq]
          exact beq_self_eq_true n.id
        · rw [if_neg hA, if_neg hB]
          exact hid
  · intro tbl' h
    have h' : txDelete Network.id tbl idArg = Except.ok tbl' := h
    have htbl' := txDelete_ok Network.id h'
    subst htbl'
    exact ⟨List.Pairwise.sublist (List.filter_sublist tbl) hn',
      List.Pairwise.sublist (List.filter_sublist tbl) hi'⟩

/-! ## Lemmas for snapshot restore -/

theorem deleteIDs_cons {α : Type} (getID : α → String) (id : String)
    (ids : List String) (tbl : List α) :
    deleteIDs getID (id :: ids) tbl =
      match txDelete getID tbl id with
      | Except.error e => Except.error e
      | Except.ok tbl' => deleteIDs getID ids tbl' := rfl

theorem createAllNetworks_cons (m : Network) (snap acc : List Network) :
    createAllNetworks (m :: snap) acc =
      match CreateNetwork acc m with
      | Except.error e => Except.error e
      | Except.ok tbl' => createAllNetworks snap tbl' := rfl

theorem createAllNodes_cons (m : Node) (snap acc : List Node) :
    createAllNodes (m :: snap) acc =
      match CreateNode acc m with
      | Except.error e => Except.error e
      | Except.ok tbl' => createAllNodes snap tbl' := rfl

theorem deleteIDs_map_self {α : Type} (getID : α → String) :
    ∀ (tbl : List α), idsUnique getID tbl →
      deleteIDs getID (tbl.map getID) tbl = Except.ok [] := by
  intro tbl
  induction tbl with
  | nil =>
    intro _
    rfl
  | cons x t ih =>
    intro h
    rw [idsUnique, List.pairwise_cons] at h
    have hdel : txDelete getID (x :: t) (getID x) = Except.ok t := by
      unfold txDelete
      have hany : ((x :: t).any (fun y => getID y == getID x)) = true := by
        rw [List.any_cons, beq_self_eq_true, Bool.true_or]
      rw [if_pos hany]
      have hxx : (getID x == getID x) = true := beq_self_eq_true (getID x)
      rw [List.filter_cons_of_neg (by intro hcontra; simp [hxx] at hcontra)]
      rw [List.filter_eq_self.mpr]
      intro a ha
      have hfa : (getID a == getID x) = false := by
        rw [Bool.eq_false_iff]
        intro hb
        exact h.1 a ha (eq_of_beq hb).symm
      simp [hfa]
    rw [List.map_cons, deleteIDs_cons, hdel]
    exact ih h.2

theorem createAllNetworks_disjoint :
    ∀ (snap acc : List Network),
      (∀ x ∈ snap, ∀ a ∈ acc, a.name ≠ x.name ∧ a.id ≠ x.id) →
      namesUnique snap → idsUnique Network.id snap →
      createAllNetworks snap acc = Except.ok (acc ++ snap) := by
  intro snap
  induction snap with
  | nil =>
    intro acc _ _ _
    rw [List.append_nil]
    rfl
  | cons m snap ih =>
    intro acc hdisj hname hid
    rw [namesUnique, List.pairwise_cons] at hname
    rw [idsUnique, List.pairwise_cons] at hid
    have hnone : lookupNetworkByName acc m.name = none :=
      lookupNetworkByName_none
        (fun a ha => (hdisj m (List.mem_cons_self m snap) a ha).1)
    have hany : ¬(acc.any (fun y => Network.id y == Network.id m) = true) := by
      rw [List.any_eq_true]
      rintro ⟨a, ha, hbeq⟩
      exact (hdisj m (List.mem_cons_self m snap) a ha).2 (eq_of_beq hbeq)
    have hcreate : CreateNetwork acc m = Except.ok (acc ++ [m]) := by
      unfold CreateNetwork
      rw [hnone]
      rw [if_neg (by simp)]
      unfold txCreate
      rw [if_neg hany]
    have hstep : createAllNetworks (m :: snap) acc =
        createAllNetworks snap (acc ++ [m]) := by
      rw [createAllNetworks_cons, hcreate]
    rw [hstep]
    have hdisj' : ∀ x ∈ snap, ∀ a ∈ acc ++ [m],
        a.name ≠ x.name ∧ a.id ≠ x.id := by
      intro x hx a ha
      rcases List.mem_append.mp ha with ha | ha
      · exact hdisj x (List.mem_cons_of_mem m hx) a ha
      · rw [List.mem_singleton] at ha
        subst ha
        exact ⟨hname.1 x hx, hid.1 x hx⟩
    rw [ih (acc ++ [m]) hdisj' hname.2 hid.2, List.append_assoc]
    rfl

theorem createAllNodes_disjoint :
    ∀ (snap acc : List Node),
      (∀ x ∈ snap, ∀ a ∈ acc, Node.id a ≠ Node.id x) →
      idsUnique Node.id snap →
      createAllNodes snap acc = Except.ok (acc ++ snap) := by
  intro snap
  induction snap with
  | nil =>
    intro acc _ _
    rw [List.append_nil]
    rfl
  | cons m snap ih =>
    intro acc hdisj hid
    rw [idsUnique, List.pairwise_cons] at hid
    have hany : ¬(acc.any (fun y => Node.id y == Node.id m) = true) := by
      rw [List.any_eq_true]
      rintro ⟨a, ha, hbeq⟩
      exact hdisj m (List.mem_cons_self m snap) a ha (eq_of_beq hbeq)
    have hcreate : CreateNode acc m = Except.ok (acc ++ [m]) := by
      unfold CreateNode txCreate
      rw [if_neg hany]
    have hstep : createAllNodes (m :: snap) acc =
        createAllNodes snap (acc ++ [m]) := by
      rw [createAllNodes_cons, hcreate]
    rw [hstep]
    have hdisj' : ∀ x ∈ snap, ∀ a ∈ acc ++ [m], Node.id a ≠ Node.id x := by
      intro x hx a ha
      rcases List.mem_append.mp ha with ha | ha
      · exact hdisj x (List.mem_cons_of_mem m hx) a ha
      · rw [List.mem_singleton] at ha
        subst ha
        exact hid.1 x hx
    rw [ih (acc ++ [m]) hdisj' hid.2, List.append_assoc]
    rfl

/-! ## Claim theorem: snapshot restore round trip -/

/-- Claim C10: Restore for both the network and the node table first deletes
every object currently present and then creates exactly the objects of the
snapshot, so a subsequent Save (FindAll) returns exactly the snapshot's
object list and no pre-existing object outside the snapshot survives. -/
theorem snapshotRestoreRoundTrip (tblNet snapNet : List Network)
    (tblNode snapNode : List Node)
    (h1 : idsUnique Network.id tblNet)
    (h2 : namesUnique snapNet) (h3 : idsUnique Network.id snapNet)
    (h4 : idsUnique Node.id tblNode) (h5 : idsUnique Node.id snapNode) :
    RestoreNetworks tblNet snapNet = Except.ok (SaveTable snapNet) ∧
    RestoreNodes tblNode snapNode = Except.ok (SaveTable snapNode) := by
  constructor
  · unfold RestoreNetworks
    rw [deleteIDs_map_self Network.id tblNet h1]
    have := createAllNetworks_disjoint snapNet []
      (by intro x hx a ha; exact absurd ha (List.not_mem_nil a)) h2 h3
    rw [List.nil_append] at this
    exact this
  · unfold RestoreNodes
    rw [deleteIDs_map_self Node.id tblNode h4]
    have := createAllNodes_disjoint snapNode []
      (by intro x hx a ha; exact absurd ha (List.not_mem_nil a)) h5
    rw [List.nil_append] at this
    exact this

/-! ## Closed corollaries running each claim theorem on concrete inputs -/

/-- Closed run of the completion claim on a converged two-member state. -/
theorem rotationCompletionCommit_run :
    (rootReconcilePass demoHash demoIssuerOf demoTokens
        demoStateDone).cluster.rootCA =
      { caCert := demoRotation.caCert
        caKey := demoRotation.caKey
        caCertHash := demoHash demoRotation.caCert
        joinTokens := demoTokens
        rootRotation := none } ∧
    (rootReconcilePass demoHash demoIssuerOf demoTokens demoStateDone).nodes =
      demoStateDone.nodes :=
  rotationCompletionCommit demoHash demoIssuerOf demoTokens demoStateDone
    demoRotation rfl (by decide) (by decide)

/-- Closed run of the convergence claim on the six-node mixed-state
scenario. -/
theorem rotationDrivesMembersToRotate_run :
    List.Forall₂ (fun n n' =>
      (n.membership = NodeMembership.accepted →
        n.tlsInfo ≠ some (demoIssuerOf demoRotation.caCert) →
        n'.certificate.status.state = IssuanceState.rotate) ∧
      (n.membership ≠ NodeMembership.accepted → n' = n))
      demoState6.nodes
      (reconcileSteps demoHash demoIssuerOf demoTokens
        (countWants (demoIssuerOf demoRotation.caCert) demoState6)
        demoState6).nodes :=
  rotationDrivesMembersToRotate demoHash demoIssuerOf demoTokens demoState6
    demoRotation rfl

/-- Closed run of the throttling claim on twice the batch size of issued
nodes. -/
theorem rotationThrottled_run :
    (∀ st' : CAState, newlyRotatedCount st'.nodes
        (rootReconcilePass demoHash demoIssuerOf demoTokens st').nodes ≤
        IssuanceStateRotateMaxBatchSize) ∧
    countRotate (rootReconcilePass demoHash demoIssuerOf demoTokens
        demoStateBig).nodes = IssuanceStateRotateMaxBatchSize :=
  rotationThrottled demoHash demoIssuerOf demoTokens demoStateBig demoRotation
    rfl
    (by
      intro n hn
      rw [List.eq_of_mem_replicate hn]
      exact ⟨rfl, rfl, rfl⟩)
    (by simp [demoStateBig])

/-- Closed run of the aborted-rotation claim on a state with a leftover
Rotate node and no rootRotation. -/
theorem abortedRotationLeavesRotateNodes_run :
    rootReconcilePass demoHash demoIssuerOf demoTokens demoStateAborted =
      demoStateAborted :=
  abortedRotationLeavesRotateNodes demoHash demoIssuerOf demoTokens
    demoStateAborted rfl

/-- Closed run of the bad-token claim with a wrong worker token. -/
theorem issueNewNodeBadToken_run :
    issueNodeCertificate "node-1" (demoCluster none) [] none demoReqBadTok =
      ([], Except.error (GrpcCode.unauthenticated,
        "A valid join token is necessary to join this cluster")) :=
  issueNewNodeBadToken "node-1" (demoCluster none) [] demoReqBadTok
    (by decide)

/-- Closed run of the forced-rotation no-op claim on a Rotate node. -/
theorem forceRotationIsNoop_run :
    signNode demoDecodeOk demoSign (mkNode "1" true IssuanceState.rotate none) =
      mkNode "1" true IssuanceState.rotate none :=
  forceRotationIsNoop demoDecodeOk demoSign
    (mkNode "1" true IssuanceState.rotate none) rfl

/-- Closed run of the invalid-CSR claim with garbage CSR bytes and the valid
worker token. -/
theorem invalidCSRFailsAfterAdmission_run :
    issueNodeCertificate "node-2" (demoCluster none) [] none demoReqGarbage =
      ([] ++ [newNodeRecord "node-2" demoReqGarbage],
        Except.ok
          { nodeID := "node-2", membership := NodeMembership.accepted }) ∧
    (newNodeRecord "node-2" demoReqGarbage).membership =
      NodeMembership.accepted ∧
    (signNode demoDecodeFail demoSign
      (newNodeRecord "node-2" demoReqGarbage)).certificate.status.state =
      IssuanceState.failed ∧
    (signNode demoDecodeFail demoSign
      (newNodeRecord "node-2" demoReqGarbage)).certificate.status.err =
      "CSR Decode failed: " ++ "not a csr" ∧
    (signNode demoDecodeFail demoSign
      (newNodeRecord "node-2" demoReqGarbage)).certificate.certificate =
      none ∧
    signNode demoDecodeFail demoSign
      (signNode demoDecodeFail demoSign
        (newNodeRecord "node-2" demoReqGarbage)) =
      signNode demoDecodeFail demoSign
        (newNodeRecord "node-2" demoReqGarbage) :=
  invalidCSRFailsAfterAdmission "node-2" (demoCluster none) [] demoReqGarbage
    "not a csr" demoDecodeFail demoSign rfl (by decide) rfl

/-- Closed run of the persist-failure claim: the previous configuration
survives the failed swap. -/
theorem updateRootCANoSwapOnPersistFailure_run :
    updateRootCA (fun _ => false) (demoCluster (some demoRotation))
      demoOldConfig = demoOldConfig :=
  updateRootCANoSwapOnPersistFailure (fun _ => false)
    (demoCluster (some demoRotation)) demoOldConfig rfl


/-- Closed run of the name-uniqueness claim on a two-network table and a
conflicting third network. -/
theorem networkNameUniqueness_run :
    ((∃ m ∈ [Network.mk "id1" "net1", Network.mk "id2" "net2"],
        m.name = (Network.mk "id3" "net1").name) →
      CreateNetwork [Network.mk "id1" "net1", Network.mk "id2" "net2"]
        (Network.mk "id3" "net1") =
        Except.error StoreError.errNameConflict) ∧
    (UpdateNetwork [Network.mk "id1" "net1", Network.mk "id2" "net2"]
        (Network.mk "id3" "net1") =
        Except.error StoreError.errNameConflict ↔
      ∃ m ∈ [Network.mk "id1" "net1", Network.mk "id2" "net2"],
        m.name = (Network.mk "id3" "net1").name ∧
        m.id ≠ (Network.mk "id3" "net1").id) ∧
    (∀ tbl', CreateNetwork [Network.mk "id1" "net1", Network.mk "id2" "net2"]
        (Network.mk "id3" "net1") = Except.ok tbl' →
      namesUnique tbl' ∧ idsUnique Network.id tbl') ∧
    (∀ tbl', UpdateNetwork [Network.mk "id1" "net1", Network.mk "id2" "net2"]
        (Network.mk "id3" "net1") = Except.ok tbl' →
      namesUnique tbl' ∧ idsUnique Network.id tbl') ∧
    (∀ tbl', DeleteNetwork [Network.mk "id1" "net1", Network.mk "id2" "net2"]
        "id2" = Except.ok tbl' →
      namesUnique tbl' ∧ idsUnique Network.id tbl') :=
  networkNameUniqueness [Network.mk "id1" "net1", Network.mk "id2" "net2"]
    (Network.mk "id3" "net1") "id2"
    (by unfold namesUnique; decide) (by unfold idsUnique; decide)

/-- Closed run of the restore round trip on small concrete tables. -/
theorem snapshotRestoreRoundTrip_run :
    RestoreNetworks [Network.mk "a" "x"]
        [Network.mk "b" "y", Network.mk "c" "z"] =
      Except.ok (SaveTable [Network.mk "b" "y", Network.mk "c" "z"]) ∧
    RestoreNodes [mkNode "1" true IssuanceState.issued none]
        [mkNode "2" true IssuanceState.pending none] =
      Except.ok (SaveTable [mkNode "2" true IssuanceState.pending none]) :=
  snapshotRestoreRoundTrip [Network.mk "a" "x"]
    [Network.mk "b" "y", Network.mk "c" "z"]
    [mkNode "1" true IssuanceState.issued none]
    [mkNode "2" true IssuanceState.pending none]
    (by unfold idsUnique; decide) (by unfold namesUnique; decide)
    (by unfold idsUnique; decide) (by unfold idsUnique; decide)
    (by unfold idsUnique; decide)

end Swarmkit
